import Mathlib

/-
Verification of the unidiff unified-diff parser (unidiff/patch.py).

Strings from the Python code are embedded as lists of characters
(abbreviation Str below).  Input to the parser is the already-decoded
sequence of text lines, each line given without its trailing newline,
matching the top-level entry contract of the library.

The regular expressions and the LINE_TYPE_* constants live in
unidiff/constants.py, which is not among the sources; those definitions
are modelled from the specification text (its grammar in section 6 and
the line-classifier contract in section 4.1) and are marked as such in
their doc comments.  Everything else is translated directly from
unidiff/patch.py.
-/

namespace Unidiff

abbrev Str := List Char

/-- Modelled from the spec: marker of an added hunk body line
(constant LINE_TYPE_ADDED of the missing unidiff/constants.py). -/
def LINE_TYPE_ADDED : Str := [ '+' ]

/-- Modelled from the spec: marker of a removed hunk body line
(constant LINE_TYPE_REMOVED of the missing unidiff/constants.py). -/
def LINE_TYPE_REMOVED : Str := [ '-' ]

/-- Modelled from the spec: marker of a context hunk body line
(constant LINE_TYPE_CONTEXT of the missing unidiff/constants.py). -/
def LINE_TYPE_CONTEXT : Str := [ ' ' ]

/-- Modelled from the spec: the empty marker of a fully blank hunk body
line (constant LINE_TYPE_EMPTY of the missing unidiff/constants.py). -/
def LINE_TYPE_EMPTY : Str := []

/-- A diff line (class Line of patch.py). -/
structure Line where
  value : Str
  line_type : Str
  source_line_no : Option Nat
  target_line_no : Option Nat
deriving DecidableEq

/-- Line.is_added of patch.py. -/
def Line.is_added (l : Line) : Bool := l.line_type = LINE_TYPE_ADDED

/-- Line.is_removed of patch.py. -/
def Line.is_removed (l : Line) : Bool := l.line_type = LINE_TYPE_REMOVED

/-- Line.is_context of patch.py. -/
def Line.is_context (l : Line) : Bool := l.line_type = LINE_TYPE_CONTEXT

/-- Each of the modified blocks of a file (class Hunk of patch.py; the
Python class subclasses list, here the contained lines are the field
lines). -/
structure Hunk where
  source_start : Nat
  source_length : Nat
  target_start : Nat
  target_length : Nat
  section_header : Str
  lines : List Line
deriving DecidableEq

/-- Hunk.source_lines of patch.py: lines from the source file. -/
def Hunk.source_lines (h : Hunk) : List Line :=
  h.lines.filter (fun l => l.is_context || l.is_removed)

/-- Hunk.target_lines of patch.py: lines from the target file. -/
def Hunk.target_lines (h : Hunk) : List Line :=
  h.lines.filter (fun l => l.is_context || l.is_added)

/-- Hunk.is_valid of patch.py: the header data matches the entered
lines info.  (The Python property source renders each source line to a
string before taking the length, which leaves the length unchanged.) -/
def Hunk.is_valid (h : Hunk) : Bool :=
  h.source_lines.length == h.source_length && h.target_lines.length == h.target_length

/-- Hunk.added of patch.py: number of added lines in the hunk. -/
def Hunk.added (h : Hunk) : Nat := (h.lines.filter (fun l => l.is_added)).length

/-- Hunk.removed of patch.py: number of removed lines in the hunk. -/
def Hunk.removed (h : Hunk) : Nat := (h.lines.filter (fun l => l.is_removed)).length

/-- The five capture groups of the hunk header pattern: source start,
optional source length, target start, optional target length, section
header text. -/
structure HunkInfo where
  src_start : Nat
  src_len : Option Nat
  tgt_start : Nat
  tgt_len : Option Nat
  section_header : Str
deriving DecidableEq

/-- Hunk.__init__ of patch.py applied to the header capture groups: an
omitted length capture (None) defaults to 1, and the hunk starts with no
lines. -/
def Hunk.fromInfo (i : HunkInfo) : Hunk :=
  { source_start := i.src_start, source_length := i.src_len.getD 1,
    target_start := i.tgt_start, target_length := i.tgt_len.getD 1,
    section_header := i.section_header, lines := [] }

/-- Modelled from the spec: the hunk body line pattern RE_HUNK_BODY_LINE
of the missing unidiff/constants.py, following the grammar
hunk-body-line := marker content with marker one of plus, minus, a
single space, or the empty string, the last only for a fully blank line;
any other leading character is not a valid hunk body line.  Returns the
captured marker and content. -/
def matchHunkBodyLine : Str → Option (Str × Str)
  | [] => some (LINE_TYPE_EMPTY, [])
  | c :: rest =>
    if c = '+' then some (LINE_TYPE_ADDED, rest)
    else if c = '-' then some (LINE_TYPE_REMOVED, rest)
    else if c = ' ' then some (LINE_TYPE_CONTEXT, rest)
    else none

/-- The per-line body of the loop of PatchedFile._parse_hunk
(patch.py lines 196 to 216): build the Line for a classified body line,
assign line numbers from the running counters, and return the line to
append (None for an unhandled marker, which cannot arise from
matchHunkBodyLine) together with the updated counters. -/
def mkParsedLine (lt v : Str) (s t : Nat) : Option Line × Nat × Nat :=
  if lt = LINE_TYPE_ADDED then
    (some { value := v, line_type := lt, source_line_no := none, target_line_no := some t },
     s, t + 1)
  else if lt = LINE_TYPE_REMOVED then
    (some { value := v, line_type := lt, source_line_no := some s, target_line_no := none },
     s + 1, t)
  else if lt = LINE_TYPE_CONTEXT then
    (some { value := v, line_type := lt, source_line_no := some s, target_line_no := some t },
     s + 1, t + 1)
  else if lt = LINE_TYPE_EMPTY then
    (some { value := LINE_TYPE_EMPTY, line_type := LINE_TYPE_CONTEXT,
            source_line_no := some s, target_line_no := some t },
     s + 1, t + 1)
  else (none, s, t)

/-- The parse errors the embedding distinguishes: the UnidiffParseError
of errors.py carrying its message, and the UnboundLocalError Python
raises when a local variable is read before any assignment. -/
inductive PErr where
  | UnidiffParseError (msg : Str)
  | UnboundLocalError
deriving DecidableEq

/-- Message of the parse error raised for an unrecognized hunk body line
(patch.py line 192). -/
def hunkLineExpectedMsg (line : Str) : Str :=
  "Hunk diff line expected: ".toList ++ line

/-- Message of the parse error raised for a target header in an open
file (patch.py line 307). -/
def targetWithoutSourceMsg (line : Str) : Str :=
  "Target without source: ".toList ++ line

/-- Message of the parse error raised for a hunk header outside a file
(patch.py line 320). -/
def unexpectedHunkMsg (line : Str) : Str :=
  "Unexpected hunk found: ".toList ++ line

/-- The loop of PatchedFile._parse_hunk (patch.py lines 187 to 223):
consume body lines from the shared cursor, classifying each (raising on
an unrecognized marker), appending the built line, and breaking as soon
as the hunk validity predicate holds.  Returns the assembled hunk and
the unconsumed remainder of the input; input exhaustion simply ends the
loop. -/
def hunkBodyLoop (hunk : Hunk) (s t : Nat) : List Str → Except PErr (Hunk × List Str)
  | [] => .ok (hunk, [])
  | line :: rest =>
    match matchHunkBodyLine line with
    | none => .error (.UnidiffParseError (hunkLineExpectedMsg line))
    | some (lt, value) =>
      let r := mkParsedLine lt value s t
      let hunk' :=
        match r.1 with
        | some l => { hunk with lines := hunk.lines ++ [l] }
        | none => hunk
      if hunk'.is_valid then .ok (hunk', rest)
      else hunkBodyLoop hunk' r.2.1 r.2.2 rest

/-- Patch updated file: a list of hunks plus the header data
(class PatchedFile of patch.py; the Python class subclasses list, here
the contained hunks are the field hunks). -/
structure PatchedFile where
  source_file : Str
  source_timestamp : Option Str
  target_file : Str
  target_timestamp : Option Str
  hunks : List Hunk
deriving DecidableEq

/-- PatchedFile._parse_hunk of patch.py: build the hunk from the header
capture groups (the scanner hands over a line already matched against
the hunk header pattern, which _parse_hunk re-matches; being a pure
match, passing the captured groups is equivalent), run the body loop
with the counters initialized to the declared starts, and append the
resulting hunk to the file unconditionally. -/
def PatchedFile._parse_hunk (pf : PatchedFile) (info : HunkInfo) (diff : List Str) :
    Except PErr (PatchedFile × List Str) :=
  match hunkBodyLoop (Hunk.fromInfo info) (Hunk.fromInfo info).source_start
      (Hunk.fromInfo info).target_start diff with
  | .error e => .error e
  | .ok (h, rest) => .ok ({ pf with hunks := pf.hunks ++ [h] }, rest)

/-- Python str.startswith translated to character lists: strip the
candidate leading characters, None when they do not all match. -/
def stripPrefixChars : Str → Str → Option Str
  | [], cs => some cs
  | _ :: _, [] => none
  | p :: ps, c :: cs => if c = p then stripPrefixChars ps cs else none

/-- Python str.startswith as a Boolean. -/
def startsWithChars (p cs : Str) : Bool := (stripPrefixChars p cs).isSome

/-- PatchedFile.path of patch.py: the file path abstracted from VCS. -/
def PatchedFile.path (pf : PatchedFile) : Str :=
  if startsWithChars "a/".toList pf.source_file &&
      startsWithChars "b/".toList pf.target_file then
    pf.source_file.drop 2
  else if startsWithChars "a/".toList pf.source_file &&
      pf.target_file = "/dev/null".toList then
    pf.source_file.drop 2
  else if startsWithChars "b/".toList pf.target_file &&
      pf.source_file = "/dev/null".toList then
    pf.target_file.drop 2
  else
    pf.source_file

/-- PatchedFile.added of patch.py: the file total added lines. -/
def PatchedFile.added (pf : PatchedFile) : Nat :=
  (pf.hunks.map (fun h => h.added)).sum

/-- PatchedFile.removed of patch.py: the file total removed lines. -/
def PatchedFile.removed (pf : PatchedFile) : Nat :=
  (pf.hunks.map (fun h => h.removed)).sum

/-- PatchedFile.is_added_file of patch.py: exactly one hunk, whose
declared source start and source length are both zero. -/
def PatchedFile.is_added_file (pf : PatchedFile) : Bool :=
  match pf.hunks with
  | [h] => h.source_start == 0 && h.source_length == 0
  | _ => false

/-- PatchedFile.is_removed_file of patch.py: exactly one hunk, whose
declared target start and target length are both zero. -/
def PatchedFile.is_removed_file (pf : PatchedFile) : Bool :=
  match pf.hunks with
  | [h] => h.target_start == 0 && h.target_length == 0
  | _ => false

/-- PatchedFile.is_modified_file of patch.py. -/
def PatchedFile.is_modified_file (pf : PatchedFile) : Bool :=
  !(pf.is_added_file || pf.is_removed_file)

/-- Split a line at its first tab: the part before the tab and, when a
tab is present, the part after it. -/
def splitOnTab : Str → Str × Option Str
  | [] => ([], none)
  | c :: rest =>
    if c = '\t' then ([], some rest)
    else
      let r := splitOnTab rest
      (c :: r.1, r.2)

/-- Modelled from the spec: the source file header pattern
RE_SOURCE_FILENAME of the missing unidiff/constants.py, following the
grammar source-header := three minus signs, a space, a nonempty path,
then optionally a tab and a timestamp.  Returns the captured path and
optional timestamp. -/
def matchSourceFilename (cs : Str) : Option (Str × Option Str) :=
  match stripPrefixChars "--- ".toList cs with
  | none => none
  | some rest =>
    let r := splitOnTab rest
    if r.1 = [] then none else some r

/-- Modelled from the spec: the target file header pattern
RE_TARGET_FILENAME of the missing unidiff/constants.py, following the
grammar target-header := three plus signs, a space, a nonempty path,
then optionally a tab and a timestamp. -/
def matchTargetFilename (cs : Str) : Option (Str × Option Str) :=
  match stripPrefixChars "+++ ".toList cs with
  | none => none
  | some rest =>
    let r := splitOnTab rest
    if r.1 = [] then none else some r

/-- Leading decimal digits of a character list and the remainder. -/
def takeDigits : Str → Str × Str
  | [] => ([], [])
  | c :: rest =>
    if c.isDigit then
      let r := takeDigits rest
      (c :: r.1, r.2)
    else ([], c :: rest)

/-- Numeric value of a list of decimal digits (Python int applied to a
captured group). -/
def digitsToNat (ds : Str) : Nat :=
  ds.foldl (fun n c => n * 10 + (c.toNat - 48)) 0

/-- An optional comma-and-length field of the hunk header: either a
comma followed by at least one digit, or nothing. -/
def takeOptLen (cs : Str) : Option (Option Nat × Str) :=
  match cs with
  | ',' :: rest =>
    let r := takeDigits rest
    if r.1 = [] then none else some (some (digitsToNat r.1), r.2)
  | _ => some (none, cs)

/-- The tail of the hunk header after the closing marker: either
nothing, or a space followed by the section header text. -/
def takeSectionTail (cs : Str) : Option Str :=
  match cs with
  | [] => some []
  | ' ' :: rest => some rest
  | _ => none

/-- Modelled from the spec: the hunk header pattern RE_HUNK_HEADER of
the missing unidiff/constants.py, following the grammar
hunk-header := at-at-minus marker, source start, an optional comma and
source length, space-plus, target start, an optional comma and target
length, the closing space-at-at, then optionally a space and the
section header text. -/
def matchHunkHeader (cs : Str) : Option HunkInfo :=
  match stripPrefixChars "@@ -".toList cs with
  | none => none
  | some cs1 =>
    match takeDigits cs1 with
    | ([], _) => none
    | (sd, cs2) =>
      match takeOptLen cs2 with
      | none => none
      | some (slen, cs3) =>
        match stripPrefixChars " +".toList cs3 with
        | none => none
        | some cs4 =>
          match takeDigits cs4 with
          | ([], _) => none
          | (td, cs5) =>
            match takeOptLen cs5 with
            | none => none
            | some (tlen, cs6) =>
              match stripPrefixChars " @@".toList cs6 with
              | none => none
              | some cs7 =>
                match takeSectionTail cs7 with
                | none => none
                | some sh =>
                  some { src_start := digitsToNat sd, src_len := slen,
                         tgt_start := digitsToNat td, tgt_len := tlen,
                         section_header := sh }

/-- The mutable locals of PatchSet._parse: the last parsed source
header (None models the Python locals source_file and source_timestamp
being still unassigned), the files already appended to the patch set
and no longer current, and the current open file (current_file).  The
list the Python code has built at any point is closed plus the current
file, in that order: appending to self happens when the target header
is consumed, and the object keeps receiving hunks until the next source
header resets current_file. -/
structure ScanState where
  source : Option (Str × Option Str)
  closed : List PatchedFile
  current : Option PatchedFile
deriving DecidableEq

/-- The files accumulated so far, in order of appearance. -/
def ScanState.result (st : ScanState) : List PatchedFile :=
  st.closed ++ st.current.toList

/-- The loop of PatchSet._parse of patch.py (lines 291 to 321), with a
fuel argument bounding the recursion depth.  Scanning runs the source
header check, the target header check, and the hunk header check in
that order, ignoring all other lines; the hunk branch passes the shared
cursor to _parse_hunk and resumes from the remainder it returns.  Each
step recurses on a list no longer than the tail of its input, so fuel
equal to the length of the input (as supplied by PatchSet._parse) never
runs out; the fuel-exhausted clause mirrors the input-exhausted one. -/
def scanLines : Nat → ScanState → List Str → Except PErr (List PatchedFile)
  | _, st, [] => .ok st.result
  | 0, st, _ :: _ => .ok st.result
  | fuel + 1, st, line :: rest =>
    match matchSourceFilename line with
    | some fileinfo =>
      scanLines fuel
        { source := some fileinfo, closed := st.result, current := none } rest
    | none =>
      match matchTargetFilename line with
      | some fileinfo =>
        match st.current with
        | some _ => .error (.UnidiffParseError (targetWithoutSourceMsg line))
        | none =>
          match st.source with
          | none => .error .UnboundLocalError
          | some srcinfo =>
            let newFile : PatchedFile :=
              { source_file := srcinfo.1, source_timestamp := srcinfo.2,
                target_file := fileinfo.1, target_timestamp := fileinfo.2,
                hunks := [] }
            scanLines fuel { st with current := some newFile } rest
      | none =>
        match matchHunkHeader line with
        | some info =>
          match st.current with
          | none => .error (.UnidiffParseError (unexpectedHunkMsg line))
          | some pf =>
            match pf._parse_hunk info rest with
            | .error e => .error e
            | .ok (pf', rest') =>
              scanLines fuel { st with current := some pf' } rest'
        | none => scanLines fuel st rest

/-- PatchSet._parse of patch.py: scan the whole input starting from the
initial state (no source header seen, no files, no current file). -/
def PatchSet._parse (input : List Str) : Except PErr (List PatchedFile) :=
  scanLines input.length { source := none, closed := [], current := none } input

/-
Specification-side definitions: these follow the words of the
specification (and of the claims) rather than the code, and the
theorems below compare the code translations against them.
-/

/-- The numbering discipline the specification describes for an
assembled hunk body, as a single left-to-right walk carrying the two
running counters: an added line has no source number and the current
target counter as target number (which then advances), a removed line
has the current source counter and no target number, a context line has
both, and no other kind of line occurs.  The walk returns the final
counters, or None as soon as a line violates the discipline. -/
def numberWalk (s t : Nat) : List Line → Option (Nat × Nat)
  | [] => some (s, t)
  | l :: ls =>
    if l.line_type = LINE_TYPE_ADDED ∧ l.source_line_no = none ∧ l.target_line_no = some t then
      numberWalk s (t + 1) ls
    else if l.line_type = LINE_TYPE_REMOVED ∧ l.source_line_no = some s ∧ l.target_line_no = none then
      numberWalk (s + 1) t ls
    else if l.line_type = LINE_TYPE_CONTEXT ∧ l.source_line_no = some s ∧ l.target_line_no = some t then
      numberWalk (s + 1) (t + 1) ls
    else none

/-- A line satisfies exactly one of is_context, is_added, is_removed. -/
def exactlyOneKind (l : Line) : Bool :=
  ((if l.is_context then 1 else 0) + (if l.is_added then 1 else 0) +
    (if l.is_removed then 1 else 0)) == 1

/-- Number of context lines of a hunk (patch.py exposes no such
property; it is the count the claim about kind totals refers to). -/
def contextCount (h : Hunk) : Nat :=
  (h.lines.filter (fun l => l.is_context)).length

/-- The path normalization rule in the words of the specification: when
the source starts with the a-slash convention and the target with the
b-slash convention, the exposed path is the source path with the
leading prefix stripped (stripping stated via stripPrefixChars rather
than an index drop); the /dev/null cases strip the real side; otherwise
the raw source path. -/
def pathSpec (pf : PatchedFile) : Str :=
  if startsWithChars "a/".toList pf.source_file &&
      startsWithChars "b/".toList pf.target_file then
    (stripPrefixChars "a/".toList pf.source_file).getD pf.source_file
  else if startsWithChars "a/".toList pf.source_file &&
      pf.target_file = "/dev/null".toList then
    (stripPrefixChars "a/".toList pf.source_file).getD pf.source_file
  else if startsWithChars "b/".toList pf.target_file &&
      pf.source_file = "/dev/null".toList then
    (stripPrefixChars "b/".toList pf.target_file).getD pf.target_file
  else
    pf.source_file

/-- Whether an Except value is a success (parsing terminated without
raising). -/
def resultOk {α : Type} : Except PErr α → Bool
  | .ok _ => true
  | .error _ => false

/-
Concrete fixtures used by counterexamples and witnesses.
-/

/-- A diff whose only hunk declares two source and two target lines but
whose input ends after a single context line. -/
def truncInput : List Str :=
  [("--- a/f").toList, ("+++ b/f").toList, ("@@ -1,2 +1,2 @@").toList, (" x").toList]

/-- The truncated hunk the parse of truncInput assembles. -/
def truncHunk : Hunk :=
  { source_start := 1, source_length := 2, target_start := 1, target_length := 2,
    section_header := [],
    lines := [{ value := ['x'], line_type := LINE_TYPE_CONTEXT,
                source_line_no := some 1, target_line_no := some 1 }] }

/-- The single file the parse of truncInput returns. -/
def truncFile : PatchedFile :=
  { source_file := ("a/f").toList, source_timestamp := none,
    target_file := ("b/f").toList, target_timestamp := none,
    hunks := [truncHunk] }

/-- Input for the truncation scenario of the claim about silent
stream exhaustion. -/
def exhaustInput : List Str :=
  [("--- a/g").toList, ("+++ b/g").toList, ("@@ -3,5 +7,6 @@").toList, (" ctx").toList]

/-- The truncated hunk the parse of exhaustInput assembles. -/
def exhaustHunk : Hunk :=
  { source_start := 3, source_length := 5, target_start := 7, target_length := 6,
    section_header := [],
    lines := [{ value := ("ctx").toList, line_type := LINE_TYPE_CONTEXT,
                source_line_no := some 3, target_line_no := some 7 }] }

/-- The single file the parse of exhaustInput returns. -/
def exhaustFile : PatchedFile :=
  { source_file := ("a/g").toList, source_timestamp := none,
    target_file := ("b/g").toList, target_timestamp := none,
    hunks := [exhaustHunk] }

/-- An empty patched file used to exercise _parse_hunk directly. -/
def demoFile0 : PatchedFile :=
  { source_file := ("a/f").toList, source_timestamp := none,
    target_file := ("b/f").toList, target_timestamp := none, hunks := [] }

/-- Header info of a one-line hunk. -/
def demoInfo1 : HunkInfo :=
  { src_start := 1, src_len := some 1, tgt_start := 1, tgt_len := some 1,
    section_header := [] }

/-- Body input whose hunk completes with one line left over. -/
def demoDiff1 : List Str := [(" a").toList, ("leftover").toList]

/-- The hunk assembled from demoInfo1 and demoDiff1. -/
def demoHunk1 : Hunk :=
  { source_start := 1, source_length := 1, target_start := 1, target_length := 1,
    section_header := [],
    lines := [{ value := ['a'], line_type := LINE_TYPE_CONTEXT,
                source_line_no := some 1, target_line_no := some 1 }] }

/-- demoFile0 after appending demoHunk1. -/
def demoFile1 : PatchedFile := { demoFile0 with hunks := [demoHunk1] }

/-- Header info of a hunk with two source and three target lines. -/
def demoInfo4 : HunkInfo :=
  { src_start := 1, src_len := some 2, tgt_start := 1, tgt_len := some 3,
    section_header := [] }

/-- Body exercising all markers, including a fully blank line. -/
def demoDiff4 : List Str := [[], ("-y").toList, ("+z").toList, ("+w").toList]

/-- The hunk assembled from demoInfo4 and demoDiff4. -/
def demoHunk4 : Hunk :=
  { source_start := 1, source_length := 2, target_start := 1, target_length := 3,
    section_header := [],
    lines := [{ value := [], line_type := LINE_TYPE_CONTEXT,
                source_line_no := some 1, target_line_no := some 1 },
              { value := ['y'], line_type := LINE_TYPE_REMOVED,
                source_line_no := some 2, target_line_no := none },
              { value := ['z'], line_type := LINE_TYPE_ADDED,
                source_line_no := none, target_line_no := some 2 },
              { value := ['w'], line_type := LINE_TYPE_ADDED,
                source_line_no := none, target_line_no := some 3 }] }

/-- demoFile0 after appending demoHunk4. -/
def demoFile4 : PatchedFile := { demoFile0 with hunks := [demoHunk4] }

/-- Input whose hunk body contains a line with an unrecognized
marker. -/
def badMarkerInput : List Str :=
  [("--- a/f").toList, ("+++ b/f").toList, ("@@ -1,1 +1,1 @@").toList, ("xboom").toList]

/-- Input with a hunk header while no target header has been seen. -/
def earlyHunkInput : List Str :=
  [("--- a/f").toList, ("@@ -1,1 +1,1 @@").toList, (" context").toList]

/-- The scenario of the first testable property of the specification:
one file, one complete hunk with one context, one removed and two added
lines. -/
def specDemoInput : List Str :=
  [("--- a/f").toList, ("+++ b/f").toList, ("@@ -1,2 +1,3 @@").toList,
   (" context").toList, ("-old").toList, ("+new1").toList, ("+new2").toList]

/-- The hunk the parse of specDemoInput assembles. -/
def specDemoHunk : Hunk :=
  { source_start := 1, source_length := 2, target_start := 1, target_length := 3,
    section_header := [],
    lines := [{ value := ("context").toList, line_type := LINE_TYPE_CONTEXT,
                source_line_no := some 1, target_line_no := some 1 },
              { value := ("old").toList, line_type := LINE_TYPE_REMOVED,
                source_line_no := some 2, target_line_no := none },
              { value := ("new1").toList, line_type := LINE_TYPE_ADDED,
                source_line_no := none, target_line_no := some 2 },
              { value := ("new2").toList, line_type := LINE_TYPE_ADDED,
                source_line_no := none, target_line_no := some 3 }] }

/-- The single file the parse of specDemoInput returns. -/
def specDemoFile : PatchedFile :=
  { source_file := ("a/f").toList, source_timestamp := none,
    target_file := ("b/f").toList, target_timestamp := none,
    hunks := [specDemoHunk] }

/-
Helper lemmas.
-/

theorem stripPrefixChars_eq_drop {p cs r : Str} (h : stripPrefixChars p cs = some r) :
    r = cs.drop p.length := by
  induction p generalizing cs with
  | nil =>
    simp only [stripPrefixChars, Option.some.injEq] at h
    simp [h]
  | cons x xs ih =>
    cases cs with
    | nil => simp [stripPrefixChars] at h
    | cons c cs' =>
      simp only [stripPrefixChars] at h
      split at h
      · simpa using ih h
      · exact absurd h (by simp)

theorem startsWithChars_getD_strip {p s : Str} (h : startsWithChars p s = true) :
    (stripPrefixChars p s).getD s = s.drop p.length := by
  unfold startsWithChars at h
  cases hs : stripPrefixChars p s with
  | none => rw [hs] at h; simp at h
  | some r => simpa using stripPrefixChars_eq_drop hs

theorem stripPrefixChars_cons {p : Char} {ps cs r : Str}
    (h : stripPrefixChars (p :: ps) cs = some r) : ∃ cs', cs = p :: cs' := by
  cases cs with
  | nil => simp [stripPrefixChars] at h
  | cons c cs' =>
    simp only [stripPrefixChars] at h
    split at h
    · next hc => exact ⟨cs', by rw [hc]⟩
    · exact absurd h (by simp)

/-
C7.
-/

/-- C7: for every PatchedFile the derived path is computed exactly by
the four exhaustive cases of the specification: both sides carrying the
a-slash and b-slash convention strips the source prefix, the a-slash
source against a /dev/null target strips the source prefix, the b-slash
target against a /dev/null source strips the target prefix, and
otherwise the raw source path is exposed. -/
theorem path_matches_spec (pf : PatchedFile) : pf.path = pathSpec pf := by
  unfold PatchedFile.path pathSpec
  split
  · next hcond =>
    obtain ⟨h1, _⟩ := Bool.and_eq_true_iff.mp hcond
    rw [startsWithChars_getD_strip h1]; rfl
  · split
    · next hcond =>
      obtain ⟨h1, _⟩ := Bool.and_eq_true_iff.mp hcond
      rw [startsWithChars_getD_strip h1]; rfl
    · split
      · next hcond =>
        obtain ⟨h1, _⟩ := Bool.and_eq_true_iff.mp hcond
        rw [startsWithChars_getD_strip h1]; rfl
      · rfl

/-- C7 witness: the path of the first specDemoInput file. -/
theorem path_matches_spec_witness : specDemoFile.path = pathSpec specDemoFile :=
  path_matches_spec specDemoFile

/-
C8.
-/

/-- C8: a PatchedFile is an added file exactly when it has exactly one
hunk whose declared source start and source length are both zero, a
removed file exactly when its single hunk has declared target start and
target length both zero, and a modified file exactly when it is neither
of those. -/
theorem file_classification (pf : PatchedFile) :
    (pf.is_added_file = true ↔
      ∃ h, pf.hunks = [h] ∧ h.source_start = 0 ∧ h.source_length = 0) ∧
    (pf.is_removed_file = true ↔
      ∃ h, pf.hunks = [h] ∧ h.target_start = 0 ∧ h.target_length = 0) ∧
    (pf.is_modified_file = true ↔
      (¬ pf.is_added_file = true ∧ ¬ pf.is_removed_file = true)) := by
  refine ⟨?_, ?_, ?_⟩
  · rcases hhl : pf.hunks with _ | ⟨h1, _ | ⟨h2, tl⟩⟩ <;>
      simp [PatchedFile.is_added_file, hhl]
  · rcases hhl : pf.hunks with _ | ⟨h1, _ | ⟨h2, tl⟩⟩ <;>
      simp [PatchedFile.is_removed_file, hhl]
  · cases ha : pf.is_added_file <;> cases hr : pf.is_removed_file <;>
      simp [PatchedFile.is_modified_file, ha, hr]

/-- C8 witness: the specDemoInput file is classified as modified. -/
theorem file_classification_witness : specDemoFile.is_modified_file = true :=
  (file_classification specDemoFile).2.2.mpr (by constructor <;> simp [specDemoFile,
    PatchedFile.is_added_file, PatchedFile.is_removed_file, specDemoHunk])

/-
C9.
-/

/-- C9: for every PatchedFile the added total is the sum over its hunks
of the count of lines of kind added, and the removed total is the sum
of the counts of lines of kind removed. -/
theorem added_removed_sums (pf : PatchedFile) :
    pf.added = (pf.hunks.map (fun h => h.lines.countP (fun l => l.is_added))).sum ∧
    pf.removed = (pf.hunks.map (fun h => h.lines.countP (fun l => l.is_removed))).sum := by
  constructor <;>
    simp [PatchedFile.added, PatchedFile.removed, Hunk.added, Hunk.removed,
      List.countP_eq_length_filter]

/-- C9 witness: the totals of the specDemoInput file. -/
theorem added_removed_sums_witness :
    specDemoFile.added = 2 ∧ specDemoFile.removed = 1 := by
  have h := added_removed_sums specDemoFile
  exact ⟨by rw [h.1]; rfl, by rw [h.2]; rfl⟩

/-
C3.
-/

/-- C3 (the claim fails on the code): on the input consisting of the
single line with a target header and no preceding source header, the
scanner passes its guard (current_file is None, so the Target without
source branch is not taken) and then reads the never-assigned local
source_file, so Python raises UnboundLocalError instead of the claimed
diff parse error. -/
theorem target_alone_unbound_local :
    PatchSet._parse [("+++ b/f").toList] = .error PErr.UnboundLocalError := rfl

/-
Hunk body machinery.
-/

theorem numberWalk_append (s t : Nat) (ls ms : List Line) :
    numberWalk s t (ls ++ ms) =
      match numberWalk s t ls with
      | none => none
      | some st2 => numberWalk st2.1 st2.2 ms := by
  induction ls generalizing s t with
  | nil => simp [numberWalk]
  | cons l ls ih =>
    by_cases h1 : l.line_type = LINE_TYPE_ADDED ∧ l.source_line_no = none ∧
        l.target_line_no = some t
    · simp only [List.cons_append, numberWalk, if_pos h1]
      exact ih _ _
    · by_cases h2 : l.line_type = LINE_TYPE_REMOVED ∧ l.source_line_no = some s ∧
          l.target_line_no = none
      · simp only [List.cons_append, numberWalk, if_neg h1, if_pos h2]
        exact ih _ _
      · by_cases h3 : l.line_type = LINE_TYPE_CONTEXT ∧ l.source_line_no = some s ∧
            l.target_line_no = some t
        · simp only [List.cons_append, numberWalk, if_neg h1, if_neg h2, if_pos h3]
          exact ih _ _
        · simp only [List.cons_append, numberWalk, if_neg h1, if_neg h2, if_neg h3]

theorem bodyStep {line lt v : Str} (hm : matchHunkBodyLine line = some (lt, v)) (s t : Nat) :
    ∃ l, (mkParsedLine lt v s t).1 = some l ∧
      numberWalk s t [l] = some ((mkParsedLine lt v s t).2.1, (mkParsedLine lt v s t).2.2) := by
  have hlt : lt = LINE_TYPE_ADDED ∨ lt = LINE_TYPE_REMOVED ∨ lt = LINE_TYPE_CONTEXT ∨
      lt = LINE_TYPE_EMPTY := by
    cases line with
    | nil =>
      simp only [matchHunkBodyLine, Option.some.injEq, Prod.mk.injEq] at hm
      exact Or.inr (Or.inr (Or.inr hm.1.symm))
    | cons c rest =>
      simp only [matchHunkBodyLine] at hm
      split at hm
      · simp only [Option.some.injEq, Prod.mk.injEq] at hm
        exact Or.inl hm.1.symm
      · split at hm
        · simp only [Option.some.injEq, Prod.mk.injEq] at hm
          exact Or.inr (Or.inl hm.1.symm)
        · split at hm
          · simp only [Option.some.injEq, Prod.mk.injEq] at hm
            exact Or.inr (Or.inr (Or.inl hm.1.symm))
          · exact absurd hm (by simp)
  rcases hlt with rfl | rfl | rfl | rfl <;>
    simp [mkParsedLine, numberWalk, LINE_TYPE_ADDED, LINE_TYPE_REMOVED, LINE_TYPE_CONTEXT,
      LINE_TYPE_EMPTY]

theorem hunkBodyLoop_walk {diff : List Str} {hunk : Hunk} {s t : Nat} {h : Hunk}
    {rest : List Str} {s0 t0 : Nat}
    (hp : hunkBodyLoop hunk s t diff = .ok (h, rest))
    (hw : numberWalk s0 t0 hunk.lines = some (s, t)) :
    (∃ e, numberWalk s0 t0 h.lines = some e) ∧
    h.source_start = hunk.source_start ∧ h.source_length = hunk.source_length ∧
    h.target_start = hunk.target_start ∧ h.target_length = hunk.target_length := by
  induction diff generalizing hunk s t with
  | nil =>
    simp only [hunkBodyLoop, Except.ok.injEq, Prod.mk.injEq] at hp
    obtain ⟨rfl, rfl⟩ := hp
    exact ⟨⟨(s, t), hw⟩, rfl, rfl, rfl, rfl⟩
  | cons line diffRest ih =>
    simp only [hunkBodyLoop] at hp
    cases hm : matchHunkBodyLine line with
    | none => rw [hm] at hp; exact absurd hp (by simp)
    | some p =>
      obtain ⟨lt, v⟩ := p
      rw [hm] at hp
      obtain ⟨l, hl, hwstep⟩ := bodyStep hm s t
      simp only [hl] at hp
      have hw2 : numberWalk s0 t0 (hunk.lines ++ [l]) =
          some ((mkParsedLine lt v s t).2.1, (mkParsedLine lt v s t).2.2) := by
        rw [numberWalk_append, hw]
        exact hwstep
      split at hp
      · simp only [Except.ok.injEq, Prod.mk.injEq] at hp
        obtain ⟨rfl, rfl⟩ := hp
        exact ⟨⟨_, hw2⟩, rfl, rfl, rfl, rfl⟩
      · have hrec := ih hp hw2
        exact ⟨hrec.1, hrec.2.1, hrec.2.2.1, hrec.2.2.2.1, hrec.2.2.2.2⟩

theorem hunkBodyLoop_valid_of_rest {diff : List Str} {hunk : Hunk} {s t : Nat} {h : Hunk}
    {rest : List Str}
    (hp : hunkBodyLoop hunk s t diff = .ok (h, rest)) (hr : rest ≠ []) :
    h.is_valid = true := by
  induction diff generalizing hunk s t with
  | nil =>
    simp only [hunkBodyLoop, Except.ok.injEq, Prod.mk.injEq] at hp
    exact absurd hp.2.symm hr
  | cons line diffRest ih =>
    simp only [hunkBodyLoop] at hp
    cases hm : matchHunkBodyLine line with
    | none => rw [hm] at hp; exact absurd hp (by simp)
    | some p =>
      obtain ⟨lt, v⟩ := p
      rw [hm] at hp
      cases hml : (mkParsedLine lt v s t).1 with
      | some l =>
        simp only [hml] at hp
        split at hp
        · next hcond =>
          simp only [Except.ok.injEq, Prod.mk.injEq] at hp
          obtain ⟨rfl, _⟩ := hp
          exact hcond
        · exact ih hp
      | none =>
        simp only [hml] at hp
        split at hp
        · next hcond =>
          simp only [Except.ok.injEq, Prod.mk.injEq] at hp
          obtain ⟨rfl, _⟩ := hp
          exact hcond
        · exact ih hp

theorem hunkBodyLoop_total (diff : List Str) (hunk : Hunk) (s t : Nat)
    (hall : ∀ l ∈ diff, (matchHunkBodyLine l).isSome = true) :
    ∃ h rest, hunkBodyLoop hunk s t diff = .ok (h, rest) := by
  induction diff generalizing hunk s t with
  | nil => exact ⟨hunk, [], rfl⟩
  | cons line diffRest ih =>
    have h1 : (matchHunkBodyLine line).isSome = true := hall line (by simp)
    cases hm : matchHunkBodyLine line with
    | none => rw [hm] at h1; simp at h1
    | some p =>
      obtain ⟨lt, v⟩ := p
      have hrest : ∀ l ∈ diffRest, (matchHunkBodyLine l).isSome = true :=
        fun l hl => hall l (by simp [hl])
      simp only [hunkBodyLoop, hm]
      cases hml : (mkParsedLine lt v s t).1 with
      | some l =>
        simp only [hml]
        by_cases hv : Hunk.is_valid { hunk with lines := hunk.lines ++ [l] }
        · exact ⟨_, _, by rw [if_pos hv]⟩
        · rw [if_neg hv]
          exact ih _ _ _ hrest
      | none =>
        simp only [hml]
        by_cases hv : hunk.is_valid
        · exact ⟨_, _, by rw [if_pos hv]⟩
        · rw [if_neg hv]
          exact ih _ _ _ hrest

theorem numberWalk_mem {ls : List Line} :
    ∀ {s t : Nat} {e : Nat × Nat}, numberWalk s t ls = some e →
      ∀ l ∈ ls, exactlyOneKind l = true ∧
        l.source_line_no.isSome = (l.is_context || l.is_removed) ∧
        l.target_line_no.isSome = (l.is_context || l.is_added) := by
  induction ls with
  | nil => intro s t e _ l hl; simp at hl
  | cons x xs ih =>
    intro s t e hw l hl
    rw [numberWalk] at hw
    by_cases h1 : x.line_type = LINE_TYPE_ADDED ∧ x.source_line_no = none ∧
        x.target_line_no = some t
    · rw [if_pos h1] at hw
      rcases List.mem_cons.mp hl with rfl | hmem
      · obtain ⟨hA, hB, hC⟩ := h1
        simp [exactlyOneKind, Line.is_context, Line.is_added, Line.is_removed, hA, hB, hC,
          LINE_TYPE_ADDED, LINE_TYPE_CONTEXT, LINE_TYPE_REMOVED]
      · exact ih hw l hmem
    · rw [if_neg h1] at hw
      by_cases h2 : x.line_type = LINE_TYPE_REMOVED ∧ x.source_line_no = some s ∧
          x.target_line_no = none
      · rw [if_pos h2] at hw
        rcases List.mem_cons.mp hl with rfl | hmem
        · obtain ⟨hA, hB, hC⟩ := h2
          simp [exactlyOneKind, Line.is_context, Line.is_added, Line.is_removed, hA, hB, hC,
            LINE_TYPE_ADDED, LINE_TYPE_CONTEXT, LINE_TYPE_REMOVED]
        · exact ih hw l hmem
      · rw [if_neg h2] at hw
        by_cases h3 : x.line_type = LINE_TYPE_CONTEXT ∧ x.source_line_no = some s ∧
            x.target_line_no = some t
        · rw [if_pos h3] at hw
          rcases List.mem_cons.mp hl with rfl | hmem
          · obtain ⟨hA, hB, hC⟩ := h3
            simp [exactlyOneKind, Line.is_context, Line.is_added, Line.is_removed, hA, hB, hC,
              LINE_TYPE_ADDED, LINE_TYPE_CONTEXT, LINE_TYPE_REMOVED]
          · exact ih hw l hmem
        · rw [if_neg h3] at hw
          exact absurd hw (by simp)

theorem filter_ext_mem {p q : Line → Bool} (ls : List Line) (h : ∀ l ∈ ls, p l = q l) :
    ls.filter p = ls.filter q := by
  induction ls with
  | nil => rfl
  | cons x xs ih =>
    have hx := h x (by simp)
    have hxs := ih (fun l hl => h l (by simp [hl]))
    simp [List.filter_cons, hx, hxs]

theorem is_valid_iff (h : Hunk) :
    h.is_valid = true ↔
      h.source_lines.length = h.source_length ∧ h.target_lines.length = h.target_length := by
  simp [Hunk.is_valid]

/-
C1.
-/

/-- C1 counterexample: the parse of truncInput completes without
raising (_parse_hunk returned normally after exhausting the input), yet
the single appended hunk carries one source-side and one target-side
line against declared lengths of two, so it fails Hunk.is_valid. -/
theorem completed_parse_invalid_hunk :
    PatchSet._parse truncInput = .ok [truncFile] ∧
    truncFile.hunks = [truncHunk] ∧
    (truncHunk.lines.filter (fun l => l.source_line_no.isSome)).length = 1 ∧
    truncHunk.source_length = 2 ∧
    truncHunk.is_valid = false := ⟨rfl, rfl, rfl, rfl, rfl⟩

/-- C1 amended: for every hunk-body parse that returns with input still
unconsumed (so the loop stopped through its validity break rather than
through stream exhaustion), the appended hunk has as many lines carrying
a source line number as the declared source length, as many lines
carrying a target line number as the declared target length, and
satisfies Hunk.is_valid; a parse that exhausts the input may append an
invalid hunk. -/
theorem appended_hunk_valid_of_leftover
    (pf pf' : PatchedFile) (info : HunkInfo) (diff rest : List Str)
    (hp : pf._parse_hunk info diff = .ok (pf', rest)) (hr : rest ≠ []) :
    ∀ h, pf'.hunks = pf.hunks ++ [h] →
      (h.lines.filter (fun l => l.source_line_no.isSome)).length = h.source_length ∧
      (h.lines.filter (fun l => l.target_line_no.isSome)).length = h.target_length ∧
      h.is_valid = true := by
  unfold PatchedFile._parse_hunk at hp
  cases hb : hunkBodyLoop (Hunk.fromInfo info) (Hunk.fromInfo info).source_start
      (Hunk.fromInfo info).target_start diff with
  | error e => rw [hb] at hp; exact absurd hp (by simp)
  | ok pr =>
    obtain ⟨hk, rest2⟩ := pr
    rw [hb] at hp
    simp only [Except.ok.injEq, Prod.mk.injEq] at hp
    obtain ⟨rfl, rfl⟩ := hp
    intro h hh
    have hkh : hk = h := by
      have := congrArg (fun ls => ls.drop pf.hunks.length) hh
      simpa using this
    subst hkh
    have hvalid := hunkBodyLoop_valid_of_rest hb hr
    obtain ⟨⟨e, hwe⟩, _⟩ := hunkBodyLoop_walk hb rfl
    have hmem := numberWalk_mem hwe
    have hsrc : hk.lines.filter (fun l => l.source_line_no.isSome) = hk.source_lines :=
      filter_ext_mem _ (fun l hl => (hmem l hl).2.1)
    have htgt : hk.lines.filter (fun l => l.target_line_no.isSome) = hk.target_lines :=
      filter_ext_mem _ (fun l hl => (hmem l hl).2.2)
    obtain ⟨h1, h2⟩ := (is_valid_iff hk).mp hvalid
    exact ⟨by rw [hsrc]; exact h1, by rw [htgt]; exact h2, hvalid⟩

/-- C1 amended witness: a one-line hunk completed with a line of input
left over. -/
theorem appended_hunk_valid_of_leftover_witness :
    (demoHunk1.lines.filter (fun l => l.source_line_no.isSome)).length =
        demoHunk1.source_length ∧
    (demoHunk1.lines.filter (fun l => l.target_line_no.isSome)).length =
        demoHunk1.target_length ∧
    demoHunk1.is_valid = true :=
  appended_hunk_valid_of_leftover demoFile0 demoFile1 demoInfo1 demoDiff1
    [("leftover").toList] rfl (by simp) demoHunk1 rfl

/-
C2.
-/

/-- C2: when the body loop works through input in which every line is a
recognizable hunk body line, it never raises, whatever the declared
counts (in particular when the stream ends with the counts unmet); and
on the concrete truncated input exhaustInput the whole parse succeeds
and returns the truncated hunk, which fails its own validity predicate,
inside the returned file. -/
theorem exhausted_hunk_still_appended :
    (∀ (diff : List Str) (hunk : Hunk) (s t : Nat),
      (∀ l ∈ diff, (matchHunkBodyLine l).isSome = true) →
        resultOk (hunkBodyLoop hunk s t diff) = true) ∧
    (PatchSet._parse exhaustInput = .ok [exhaustFile] ∧
     exhaustFile.hunks = [exhaustHunk] ∧
     exhaustHunk.is_valid = false) := by
  constructor
  · intro diff hunk s t hall
    obtain ⟨h, rest, hok⟩ := hunkBodyLoop_total diff hunk s t hall
    rw [hok]
    rfl
  · exact ⟨rfl, rfl, rfl⟩

/-- C2 witness: the no-raise part applied to a concrete body. -/
theorem exhausted_hunk_still_appended_witness :
    resultOk (hunkBodyLoop (Hunk.fromInfo demoInfo4) 1 1 [(" q").toList]) = true :=
  exhausted_hunk_still_appended.1 [(" q").toList] (Hunk.fromInfo demoInfo4) 1 1
    (by intro l hl; simp at hl; subst hl; rfl)

/-
C4.
-/

/-- C4: every hunk appended by _parse_hunk is numbered by the single
walk numberWalk starting at the declared source and target starts: each
added line carries the running target counter only, each removed line
the running source counter only, each context line both, with the
corresponding counters advancing after every line, so the walk succeeds
on the stored lines; moreover a fully blank body line is rewritten to a
context line with empty content carrying both counters. -/
theorem hunk_numbering (pf pf' : PatchedFile) (info : HunkInfo) (diff rest : List Str)
    (hp : pf._parse_hunk info diff = .ok (pf', rest)) :
    (∀ h, pf'.hunks = pf.hunks ++ [h] →
      h.source_start = info.src_start ∧ h.target_start = info.tgt_start ∧
      (numberWalk h.source_start h.target_start h.lines).isSome = true) ∧
    (∀ (v : Str) (s t : Nat), mkParsedLine LINE_TYPE_EMPTY v s t =
      (some { value := [], line_type := LINE_TYPE_CONTEXT,
              source_line_no := some s, target_line_no := some t }, s + 1, t + 1)) := by
  constructor
  · unfold PatchedFile._parse_hunk at hp
    cases hb : hunkBodyLoop (Hunk.fromInfo info) (Hunk.fromInfo info).source_start
        (Hunk.fromInfo info).target_start diff with
    | error e => rw [hb] at hp; exact absurd hp (by simp)
    | ok pr =>
      obtain ⟨hk, rest2⟩ := pr
      rw [hb] at hp
      simp only [Except.ok.injEq, Prod.mk.injEq] at hp
      obtain ⟨rfl, rfl⟩ := hp
      intro h hh
      have hkh : hk = h := by
        have := congrArg (fun ls => ls.drop pf.hunks.length) hh
        simpa using this
      subst hkh
      obtain ⟨⟨e, hwe⟩, hss, _, hts, _⟩ := hunkBodyLoop_walk hb rfl
      refine ⟨by rw [hss]; rfl, by rw [hts]; rfl, ?_⟩
      rw [hss, hts]
      exact Option.isSome_iff_exists.mpr ⟨e, hwe⟩
  · intro v s t
    rfl

/-- C4 witness: the numbering walk of the hunk of demoDiff4 (which
contains a blank body line, a removed, and two added lines). -/
theorem hunk_numbering_witness :
    demoHunk4.source_start = demoInfo4.src_start ∧
    demoHunk4.target_start = demoInfo4.tgt_start ∧
    (numberWalk demoHunk4.source_start demoHunk4.target_start demoHunk4.lines).isSome = true :=
  (hunk_numbering demoFile0 demoFile4 demoInfo4 demoDiff4 [] rfl).1 demoHunk4 rfl

/-
C5.
-/

/-- C5: whenever the body loop meets a line whose leading marker is not
a plus, a minus, a single space, or the empty marker of a blank line,
it fails with the diff parse error whose message carries that exact
line; concretely, the full parse of badMarkerInput fails with the error
citing its offending line. -/
theorem bad_marker_line_error :
    (∀ (hunk : Hunk) (s t : Nat) (line : Str) (rest : List Str),
      matchHunkBodyLine line = none →
        hunkBodyLoop hunk s t (line :: rest) =
          .error (.UnidiffParseError (hunkLineExpectedMsg line))) ∧
    PatchSet._parse badMarkerInput =
      .error (.UnidiffParseError (hunkLineExpectedMsg (("xboom").toList))) := by
  constructor
  · intro hunk s t line rest hm
    simp only [hunkBodyLoop, hm]
  · rfl

/-- C5 witness: the loop-level error applied to a concrete bad line. -/
theorem bad_marker_line_error_witness :
    hunkBodyLoop (Hunk.fromInfo demoInfo1) 1 1 [("xbad").toList] =
      .error (.UnidiffParseError (hunkLineExpectedMsg (("xbad").toList))) :=
  bad_marker_line_error.1 (Hunk.fromInfo demoInfo1) 1 1 (("xbad").toList) [] rfl

/-
Scanner machinery.
-/

theorem matchSourceFilename_at_sign (cs : Str) : matchSourceFilename ('@' :: cs) = none := by
  have h1 : stripPrefixChars ("--- ").toList ('@' :: cs) = none := by
    have h2 : ("--- ").toList = '-' :: '-' :: '-' :: ' ' :: [] := rfl
    rw [h2]
    simp only [stripPrefixChars]
    rw [if_neg (by decide)]
  simp only [matchSourceFilename, h1]

theorem matchTargetFilename_at_sign (cs : Str) : matchTargetFilename ('@' :: cs) = none := by
  have h1 : stripPrefixChars ("+++ ").toList ('@' :: cs) = none := by
    have h2 : ("+++ ").toList = '+' :: '+' :: '+' :: ' ' :: [] := rfl
    rw [h2]
    simp only [stripPrefixChars]
    rw [if_neg (by decide)]
  simp only [matchTargetFilename, h1]

theorem matchHunkHeader_starts {cs : Str} {info : HunkInfo}
    (h : matchHunkHeader cs = some info) : ∃ r, cs = '@' :: r := by
  unfold matchHunkHeader at h
  cases hs : stripPrefixChars ("@@ -").toList cs with
  | none => rw [hs] at h; exact absurd h (by simp)
  | some cs1 =>
    have h2 : ("@@ -").toList = '@' :: '@' :: ' ' :: '-' :: [] := rfl
    rw [h2] at hs
    exact stripPrefixChars_cons hs

theorem parse_hunk_good {pf pf' : PatchedFile} {info : HunkInfo} {diff rest : List Str}
    (hp : pf._parse_hunk info diff = .ok (pf', rest))
    (hpf : ∀ h ∈ pf.hunks, (numberWalk h.source_start h.target_start h.lines).isSome = true) :
    ∀ h ∈ pf'.hunks, (numberWalk h.source_start h.target_start h.lines).isSome = true := by
  unfold PatchedFile._parse_hunk at hp
  cases hb : hunkBodyLoop (Hunk.fromInfo info) (Hunk.fromInfo info).source_start
      (Hunk.fromInfo info).target_start diff with
  | error e => rw [hb] at hp; exact absurd hp (by simp)
  | ok pr =>
    obtain ⟨hk, rest2⟩ := pr
    rw [hb] at hp
    simp only [Except.ok.injEq, Prod.mk.injEq] at hp
    obtain ⟨rfl, rfl⟩ := hp
    intro h hh
    simp only [List.mem_append, List.mem_singleton] at hh
    rcases hh with hmem | rfl
    · exact hpf h hmem
    · obtain ⟨⟨e, hwe⟩, hss, _, hts, _⟩ := hunkBodyLoop_walk hb rfl
      rw [hss, hts]
      exact Option.isSome_iff_exists.mpr ⟨e, hwe⟩

theorem scanLines_good (fuel : Nat) :
    ∀ (st : ScanState) (input : List Str) (fs : List PatchedFile),
      scanLines fuel st input = .ok fs →
      (∀ f ∈ st.result, ∀ h ∈ f.hunks,
        (numberWalk h.source_start h.target_start h.lines).isSome = true) →
      ∀ f ∈ fs, ∀ h ∈ f.hunks,
        (numberWalk h.source_start h.target_start h.lines).isSome = true := by
  induction fuel with
  | zero =>
    intro st input fs hp hinv
    cases input with
    | nil =>
      simp only [scanLines, Except.ok.injEq] at hp
      subst hp; exact hinv
    | cons line rest =>
      simp only [scanLines, Except.ok.injEq] at hp
      subst hp; exact hinv
  | succ fuel ih =>
    intro st input fs hp hinv
    cases input with
    | nil =>
      simp only [scanLines, Except.ok.injEq] at hp
      subst hp; exact hinv
    | cons line rest =>
      simp only [scanLines] at hp
      cases hsrc : matchSourceFilename line with
      | some fileinfo =>
        simp only [hsrc] at hp
        refine ih _ _ _ hp ?_
        intro f hf
        refine hinv f ?_
        simpa [ScanState.result] using hf
      | none =>
        simp only [hsrc] at hp
        cases htgt : matchTargetFilename line with
        | some fileinfo =>
          simp only [htgt] at hp
          cases hcur : st.current with
          | some pf => simp only [hcur] at hp; exact absurd hp (by simp)
          | none =>
            simp only [hcur] at hp
            cases hsrc2 : st.source with
            | none => simp only [hsrc2] at hp; exact absurd hp (by simp)
            | some srcinfo =>
              simp only [hsrc2] at hp
              refine ih _ _ _ hp ?_
              intro f hf h hh
              simp only [ScanState.result, Option.toList, List.mem_append] at hf
              rcases hf with hf1 | hf2
              · exact hinv f (by simp [ScanState.result, hcur, hf1]) h hh
              · simp only [List.mem_singleton] at hf2
                subst hf2
                simp at hh
        | none =>
          simp only [htgt] at hp
          cases hhdr : matchHunkHeader line with
          | some info =>
            simp only [hhdr] at hp
            cases hcur : st.current with
            | none => simp only [hcur] at hp; exact absurd hp (by simp)
            | some pf =>
              simp only [hcur] at hp
              cases hph : pf._parse_hunk info rest with
              | error e => simp only [hph] at hp; exact absurd hp (by simp)
              | ok pr =>
                obtain ⟨pf2, rest2⟩ := pr
                simp only [hph] at hp
                refine ih _ _ _ hp ?_
                intro f hf h hh
                simp only [ScanState.result, Option.toList, List.mem_append] at hf
                rcases hf with hf1 | hf2
                · exact hinv f (by simp [ScanState.result, hcur, hf1]) h hh
                · simp only [List.mem_singleton] at hf2
                  subst hf2
                  have hpfgood : ∀ h2 ∈ pf.hunks,
                      (numberWalk h2.source_start h2.target_start h2.lines).isSome = true :=
                    fun h2 hh2 => hinv pf (by simp [ScanState.result, hcur]) h2 hh2
                  exact parse_hunk_good hph hpfgood h hh
          | none =>
            simp only [hhdr] at hp
            exact ih _ _ _ hp hinv

theorem kind_count (ls : List Line) (hone : ∀ l ∈ ls, exactlyOneKind l = true) :
    (ls.filter (fun l => l.is_added)).length + (ls.filter (fun l => l.is_removed)).length +
      (ls.filter (fun l => l.is_context)).length = ls.length := by
  induction ls with
  | nil => rfl
  | cons x xs ih =>
    have hx := hone x (by simp)
    have hxs := ih (fun l hl => hone l (by simp [hl]))
    by_cases hc : x.is_context = true <;> by_cases ha : x.is_added = true <;>
      by_cases hr : x.is_removed = true <;>
      simp [exactlyOneKind, hc, ha, hr, List.filter_cons] at hx ⊢ <;> omega

/-
C6.
-/

/-- C6: whenever a line matching the hunk header grammar is scanned
while no file context is open (current_file is None, covering both the
initial state and the state right after a source header), the scan
fails with the unexpected-hunk diff parse error carrying that line;
concretely, earlyHunkInput (a hunk header right after a source header,
before any target header) fails with that error. -/
theorem unexpected_hunk_error :
    (∀ (fuel : Nat) (st : ScanState) (line : Str) (rest : List Str) (info : HunkInfo),
      st.current = none → matchHunkHeader line = some info →
        scanLines (fuel + 1) st (line :: rest) =
          .error (.UnidiffParseError (unexpectedHunkMsg line))) ∧
    PatchSet._parse earlyHunkInput =
      .error (.UnidiffParseError (unexpectedHunkMsg (("@@ -1,1 +1,1 @@").toList))) := by
  constructor
  · intro fuel st line rest info hcur hm
    obtain ⟨r, rfl⟩ := matchHunkHeader_starts hm
    simp only [scanLines, matchSourceFilename_at_sign, matchTargetFilename_at_sign, hm, hcur]
  · rfl

/-- C6 witness: the scan-level error at a concrete state and line. -/
theorem unexpected_hunk_error_witness :
    scanLines 1 { source := none, closed := [], current := none }
        [("@@ -1,2 +3,4 @@").toList] =
      .error (.UnidiffParseError (unexpectedHunkMsg (("@@ -1,2 +3,4 @@").toList))) :=
  unexpected_hunk_error.1 0 { source := none, closed := [], current := none }
    (("@@ -1,2 +3,4 @@").toList) []
    { src_start := 1, src_len := some 2, tgt_start := 3, tgt_len := some 4,
      section_header := [] } rfl rfl

/-
C10.
-/

/-- C10: after any successful parse, every line stored in every hunk of
the result satisfies exactly one of is_context, is_added, is_removed
(in particular the empty marker kind never survives parsing, a blank
body line having been rewritten to the context kind), and for every
hunk the added count plus the removed count plus the context count
equals the total number of its lines. -/
theorem parsed_line_kinds (input : List Str) (fs : List PatchedFile)
    (hp : PatchSet._parse input = .ok fs) :
    ∀ f ∈ fs, ∀ h ∈ f.hunks,
      (∀ l ∈ h.lines, exactlyOneKind l = true) ∧
      h.added + h.removed + contextCount h = h.lines.length := by
  have hg := scanLines_good input.length _ input fs hp (by simp [ScanState.result])
  intro f hf h hh
  have hwalk := hg f hf h hh
  obtain ⟨e, hwe⟩ := Option.isSome_iff_exists.mp hwalk
  have hmem := numberWalk_mem hwe
  exact ⟨fun l hl => (hmem l hl).1, kind_count h.lines (fun l hl => (hmem l hl).1)⟩

/-- C10 witness: the kind facts for the hunk of the specDemoInput
scenario. -/
theorem parsed_line_kinds_witness :
    specDemoHunk.added + specDemoHunk.removed + contextCount specDemoHunk =
      specDemoHunk.lines.length :=
  (parsed_line_kinds specDemoInput [specDemoFile] rfl specDemoFile (by simp)
    specDemoHunk (by simp [specDemoFile])).2

end Unidiff
